import Mathlib

/-!
Shallow embedding of `src/client.py` (MCP_poc).

The program is an MCP client whose core is `MCPClient.process_query`: it seeds a
`messages` list with one user turn, fetches the MCP server's tool list once,
converts it to the OpenAI function-calling schema, and then runs a `while True`
loop that calls the Azure OpenAI chat-completions API with the accumulated
`messages`, the converted tool list, `tool_choice="auto"` and `max_tokens=1500`.
If the response has no tool calls its text content is returned; otherwise the
assistant message is appended, each requested tool call is executed in order
against the MCP session (its raw JSON argument string parsed with `json.loads`
first), one tool-result message per call is appended, and the loop repeats.
`MCPClient.chat_loop` wraps `process_query` in a read-eval loop that catches any
exception, prints it, and continues with the next query.

External collaborators (the OpenAI client, the MCP `ClientSession`, and
`json.loads`) are passed in as oracle functions, per the interfaces the code
uses: the completion oracle may fail (a raised exception) or return an
assistant message; the session's `call_tool` may raise, or return a result that
itself may carry a failure (`isError`); `json.loads` may fail (a raised
`JSONDecodeError`), modelled as `none`.  The `while True` loop is embedded with
explicit fuel: `LoopResult.timeout` means the loop had not returned within the
given number of rounds, so "never returns" is "timeout at every fuel".
-/

/-- The `function` payload of one OpenAI tool call: `tool_call.function.name`
and the raw JSON string `tool_call.function.arguments` (lines 141-143). -/
structure ToolFunction where
  name : String
  arguments : String
  deriving Repr, DecidableEq

/-- One requested tool call from the model response (`tool_call`): an opaque
identifier `tool_call.id` plus the function name/raw-argument payload. -/
structure ToolCall where
  id : String
  function : ToolFunction
  deriving Repr, DecidableEq

/-- One entry of the `messages` list (Conversation State).  `user` is the
seeding dict of line 98-100; `assistant` is an appended `response_message`
(line 136), carrying its text content and requested tool calls; `tool` is a
tool-result dict (lines 151-156) with keys `tool_call_id`, `name`, `content`. -/
inductive Turn where
  | user (content : String)
  | assistant (content : String) (toolCalls : List ToolCall)
  | tool (tool_call_id : String) (name : String) (content : String)
  deriving Repr, DecidableEq

/-- The call identifier carried by a tool-result turn (the `tool_call_id` key),
`none` for the other turn kinds. -/
def Turn.callId : Turn → Option String
  | Turn.tool i _ _ => some i
  | _ => none

/-- The tool name carried by a tool-result turn (the `name` key), `none` for
the other turn kinds. -/
def Turn.toolName : Turn → Option String
  | Turn.tool _ n _ => some n
  | _ => none

/-- One tool as advertised by the MCP server (`response.tools` of line 103):
`tool.name`, `tool.description`, `tool.inputSchema` (the schema kept opaque). -/
structure ToolDescriptor where
  name : String
  description : String
  inputSchema : String
  deriving Repr, DecidableEq

/-- The `function` part of one entry of `available_tools` (lines 105-112). -/
structure OAIFunction where
  name : String
  description : String
  parameters : String
  deriving Repr, DecidableEq

/-- One entry of `available_tools`: `{"type": "function", "function": {...}}`. -/
structure OAITool where
  type : String
  function : OAIFunction
  deriving Repr, DecidableEq

/-- The conversion of one MCP tool descriptor into the OpenAI function-calling
schema, exactly the dict built at lines 105-112. -/
def toOAITool (tool : ToolDescriptor) : OAITool :=
  { type := "function",
    function := { name := tool.name, description := tool.description,
                  parameters := tool.inputSchema } }

/-- `available_tools`: the whole tool list converted (lines 105-112). -/
def toOAITools (tools : List ToolDescriptor) : List OAITool :=
  tools.map toOAITool

/-- The result object returned by `session.call_tool` when the call returns:
`isError` is the MCP failure flag, `content` the result content the code
forwards verbatim (line 155, "assumes result.content is a string"). -/
structure ToolResult where
  isError : Bool
  content : String
  deriving Repr, DecidableEq

/-- The `response.choices[0].message` of one completion (lines 126-127): text
content plus the (possibly empty) list of requested tool calls.  A Python
`tool_calls is None` is represented by the empty list, matching the truthiness
test `if not tool_calls` of line 130. -/
structure AssistantMessage where
  content : String
  toolCalls : List ToolCall
  deriving Repr, DecidableEq

/-- One request to `openai_client.chat.completions.create` (lines 118-124),
recording every argument the code passes. -/
structure ModelRequest where
  modelName : String
  maxTokens : Nat
  messages : List Turn
  tools : List OAITool
  toolChoice : String
  deriving Repr, DecidableEq

/-- The request built at lines 118-124: `model=self.azure_deployment_name`,
`max_tokens=1500`, `messages=messages`, `tools=available_tools`,
`tool_choice="auto"`. -/
def mkRequest (dep : String) (tools : List OAITool) (messages : List Turn) :
    ModelRequest :=
  { modelName := dep, maxTokens := 1500, messages := messages,
    tools := tools, toolChoice := "auto" }

/-- The connected MCP `ClientSession`, by the two operations the loop uses:
its advertised tool list (`list_tools`, kept as plain data) and `call_tool`.
`call_tool` either raises (`Except.error`, e.g. a transport failure) or
returns a `ToolResult`, which itself may report failure via `isError` — MCP
wraps unknown-tool and execution failures into the returned result. -/
structure Session where
  tools : List ToolDescriptor
  callTool : String → String → Except String ToolResult

/-- The `MCPClient` state set up by `__init__` (lines 21-37): `self.session`
starts as `None` and is only set by `connect_to_server`; the Azure deployment
name is read from the environment. -/
structure MCPClient where
  session : Option Session
  azure_deployment_name : String

/-- A fresh client as `__init__` leaves it: `self.session = None` (line 23). -/
def MCPClient.new (dep : String) : MCPClient :=
  { session := none, azure_deployment_name := dep }

/-- The exceptions a `process_query` run can raise, as Python raises them:
`notConnected` is the `AttributeError` from calling `list_tools` on
`self.session = None` (the spec's `NotConnected` kind); `argumentParseError`
is the uncaught `json.JSONDecodeError` from `json.loads` at line 143;
`toolRaised` is an exception raised by `session.call_tool` itself;
`modelAPIFailure` is an exception from the OpenAI API call. -/
inductive QueryError where
  | notConnected
  | argumentParseError (raw : String)
  | toolRaised (msg : String)
  | modelAPIFailure (msg : String)
  deriving Repr, DecidableEq

/-- Rendering of Python's `str(e)` for the exceptions above, as printed by
`chat_loop` (line 183). -/
def QueryError.toMessage : QueryError → String
  | QueryError.notConnected => "'NoneType' object has no attribute 'list_tools'"
  | QueryError.argumentParseError raw => "Expecting value: " ++ raw
  | QueryError.toolRaised m => m
  | QueryError.modelAPIFailure m => m

/-- Outcome of one `process_query` run under a given fuel bound:
`answer text final trace` is a normal return (line 132) with the returned text,
the `messages` list as it stands at the moment of return, and the list of
model-API requests that were issued; `failed` is an uncaught exception
propagating to the caller; `timeout` means the `while True` loop had not
returned within `fuel` rounds. -/
inductive LoopResult where
  | timeout (messages : List Turn) (trace : List ModelRequest)
  | failed (e : QueryError) (trace : List ModelRequest)
  | answer (text : String) (finalMessages : List Turn) (trace : List ModelRequest)
  deriving Repr, DecidableEq

/-- The model-API requests issued during the run. -/
def LoopResult.trace : LoopResult → List ModelRequest
  | LoopResult.timeout _ tr => tr
  | LoopResult.failed _ tr => tr
  | LoopResult.answer _ _ tr => tr

/-- Whether the run returned normally (reached the `return` of line 132). -/
def LoopResult.isAnswer : LoopResult → Bool
  | LoopResult.answer _ _ _ => true
  | _ => false

/-- The per-round tool-execution loop of lines 139-156: for each `tool_call`
in order, parse `tool_call.function.arguments` with `json.loads` (an
unparsable payload raises, aborting the whole round with the partial
`tool_results` discarded), run `session.call_tool` (which may itself raise),
and build the tool-result message dict of lines 151-156. -/
def runToolCalls (session : Session) (parseArgs : String → Option String) :
    List ToolCall → Except QueryError (List Turn)
  | [] => Except.ok []
  | tc :: rest =>
    match parseArgs tc.function.arguments with
    | none => Except.error (QueryError.argumentParseError tc.function.arguments)
    | some args =>
      match session.callTool tc.function.name args with
      | Except.error e => Except.error (QueryError.toolRaised e)
      | Except.ok result =>
        match runToolCalls session parseArgs rest with
        | Except.error e => Except.error e
        | Except.ok turns =>
            Except.ok (Turn.tool tc.id tc.function.name result.content :: turns)

/-- The `while True` loop of lines 115-161, with explicit fuel.  Each round
issues the request of lines 118-124 on the current `messages`; no tool calls
means return (lines 130-132, note: `messages` is returned as it stands — the
final assistant message is never appended); otherwise the assistant message is
appended (line 136), the tool calls are executed (lines 139-156) and their
results extended onto `messages` (line 159) before the next round. -/
def runLoop (complete : ModelRequest → Except String AssistantMessage)
    (session : Session) (parseArgs : String → Option String)
    (dep : String) (tools : List OAITool) :
    Nat → List Turn → List ModelRequest → LoopResult
  | 0, messages, trace => LoopResult.timeout messages trace
  | fuel + 1, messages, trace =>
    match complete (mkRequest dep tools messages) with
    | Except.error e =>
        LoopResult.failed (QueryError.modelAPIFailure e)
          (trace ++ [mkRequest dep tools messages])
    | Except.ok msg =>
        match msg.toolCalls with
        | [] =>
            LoopResult.answer msg.content messages
              (trace ++ [mkRequest dep tools messages])
        | _ :: _ =>
            match runToolCalls session parseArgs msg.toolCalls with
            | Except.error e =>
                LoopResult.failed e (trace ++ [mkRequest dep tools messages])
            | Except.ok turns =>
                runLoop complete session parseArgs dep tools fuel
                  ((messages ++ [Turn.assistant msg.content msg.toolCalls]) ++ turns)
                  (trace ++ [mkRequest dep tools messages])

/-- `MCPClient.process_query` (lines 96-162): seed `messages` with the user
turn, fetch the tool list once from `self.session` (raising the `NoneType`
attribute error when the session was never connected), convert it once to
`available_tools`, and run the loop.  The tool snapshot and deployment name
are fixed for the whole run, exactly as in the source. -/
def process_query (client : MCPClient)
    (complete : ModelRequest → Except String AssistantMessage)
    (parseArgs : String → Option String) (fuel : Nat) (query : String) :
    LoopResult :=
  match client.session with
  | none => LoopResult.failed QueryError.notConnected []
  | some session =>
      runLoop complete session parseArgs client.azure_deployment_name
        (toOAITools session.tools) fuel [Turn.user query] []

/-- Python's `str.strip()` (line 171) on whitespace, computed on the
character list so that it evaluates inside the kernel. -/
def pyStrip (s : String) : String :=
  String.mk
    (((s.data.dropWhile Char.isWhitespace).reverse.dropWhile
      Char.isWhitespace).reverse)

/-- Python's `str.lower()` (line 173), computed on the character list. -/
def pyLower (s : String) : String :=
  String.mk (s.data.map Char.toLower)

/-- One observable event of the interactive loop: a printed model reply
(line 180) or a printed error report (line 183). -/
inductive ChatEvent where
  | reply (text : String)
  | errorReport (text : String)
  deriving Repr, DecidableEq

/-- `MCPClient.chat_loop` (lines 164-183) on a finite script of input lines:
strip the input, break on `quit` (case-insensitive), skip empty input,
otherwise run `process_query`; a normal answer is printed and the loop
continues, an exception is caught, printed, and the loop continues with the
next input.  A `process_query` that never returns (timeout) leaves the loop
stuck, producing no further events. -/
def chat_loop (client : MCPClient)
    (complete : ModelRequest → Except String AssistantMessage)
    (parseArgs : String → Option String) (fuel : Nat) :
    List String → List ChatEvent
  | [] => []
  | raw :: rest =>
    if pyLower (pyStrip raw) = "quit" then []
    else if pyStrip raw = "" then chat_loop client complete parseArgs fuel rest
    else
      match process_query client complete parseArgs fuel (pyStrip raw) with
      | LoopResult.answer text _ _ =>
          ChatEvent.reply text :: chat_loop client complete parseArgs fuel rest
      | LoopResult.failed e _ =>
          ChatEvent.errorReport e.toMessage ::
            chat_loop client complete parseArgs fuel rest
      | LoopResult.timeout _ _ => []

/-- The invocation of one tool call succeeds without raising: its raw argument
payload parses, and `call_tool` returns (rather than raises) a result — which
may still carry `isError = true`. -/
def callSucceeds (session : Session) (parseArgs : String → Option String)
    (c : ToolCall) : Prop :=
  ∃ a r, parseArgs c.function.arguments = some a ∧
    session.callTool c.function.name a = Except.ok r

/-- Turn `t` is exactly the tool-result turn the loop builds for call `c`
(lines 151-156): same call id, same tool name, content equal to the returned
result's content — whether or not that result reports failure. -/
def invokedOk (session : Session) (parseArgs : String → Option String)
    (c : ToolCall) (t : Turn) : Prop :=
  ∃ a r, parseArgs c.function.arguments = some a ∧
    session.callTool c.function.name a = Except.ok r ∧
    t = Turn.tool c.id c.function.name r.content

/- Concrete backends used to exercise the definitions. -/

/-- A sample MCP tool descriptor. -/
def demoDescriptor : ToolDescriptor :=
  { name := "list_issues", description := "List open issues",
    inputSchema := "\x7btype: object\x7d" }

/-- A session whose tool always returns a successful result. -/
def demoSession : Session :=
  { tools := [demoDescriptor],
    callTool := fun _ _ => Except.ok { isError := false, content := "{count: 3}" } }

/-- A connected client over `demoSession`. -/
def demoClient : MCPClient :=
  { session := some demoSession, azure_deployment_name := "gpt-4o" }

/-- A stand-in for `json.loads` restricted to the runs below: the payload
`"BAD"` is unparsable (raises), everything else parses to itself. -/
def parseOk : String → Option String :=
  fun s => if s = "BAD" then none else some s

/-- A model oracle that never requests tools and answers `"hello"`. -/
def noToolModel : ModelRequest → Except String AssistantMessage :=
  fun _ => Except.ok { content := "hello", toolCalls := [] }

/-- A single well-formed tool call request. -/
def demoCalls : List ToolCall :=
  [{ id := "call_1", function := { name := "list_issues", arguments := "{}" } }]

/-- A model oracle that requests `demoCalls` on every response. -/
def alwaysToolModel : ModelRequest → Except String AssistantMessage :=
  fun _ => Except.ok { content := "", toolCalls := demoCalls }

/-- A tool call whose raw argument payload is unparsable. -/
def badArgCall : ToolCall :=
  { id := "call_1", function := { name := "list_issues", arguments := "BAD" } }

/-- A model oracle that requests `badArgCall` on every response. -/
def badArgModel : ModelRequest → Except String AssistantMessage :=
  fun _ => Except.ok { content := "", toolCalls := [badArgCall] }

/-- A session that reports every tool call as failed (`isError = true`),
e.g. for an unknown tool, without raising. -/
def failSession : Session :=
  { tools := [demoDescriptor],
    callTool := fun _ _ =>
      Except.ok { isError := true, content := "Error: tool not found" } }

/-- A tool call aimed at a tool the failing session does not know. -/
def demoFailCalls : List ToolCall :=
  [{ id := "call_9", function := { name := "no_such_tool", arguments := "{}" } }]

/- Helper lemmas about the loop, shared by the claim theorems below. -/

/-- When every requested call's payload parses and `call_tool` returns, the
round loop returns one tool-result turn per call, pointwise as built by
lines 151-156, in the order received. -/
theorem runToolCalls_forall2 (session : Session)
    (parseArgs : String → Option String) :
    ∀ calls : List ToolCall,
      (∀ c ∈ calls, callSucceeds session parseArgs c) →
      ∃ turns, runToolCalls session parseArgs calls = Except.ok turns ∧
        List.Forall₂ (invokedOk session parseArgs) calls turns := by
  intro calls
  induction calls with
  | nil => intro _; exact ⟨[], rfl, List.Forall₂.nil⟩
  | cons c cs ihc =>
      intro hall
      obtain ⟨a, r, hpa, hcall⟩ := hall c (by simp)
      obtain ⟨turns, hrun, hf⟩ := ihc (fun x hx => hall x (by simp [hx]))
      refine ⟨Turn.tool c.id c.function.name r.content :: turns, ?_, ?_⟩
      · simp [runToolCalls, hpa, hcall, hrun]
      · exact List.Forall₂.cons ⟨a, r, hpa, hcall, rfl⟩ hf

/-- Pointwise-related lists have equal images under compatible maps. -/
theorem forall2_map_eq {α β γ : Type} {R : α → β → Prop} {f : α → γ} {g : β → γ}
    (h : ∀ a b, R a b → f a = g b) :
    ∀ {l₁ : List α} {l₂ : List β}, List.Forall₂ R l₁ l₂ →
      l₁.map f = l₂.map g := by
  intro l₁ l₂ hf
  induction hf with
  | nil => rfl
  | cons hr _ ihr => simp [h _ _ hr, ihr]

/-- If the loop returns normally, the last issued request got a response with
no tool calls, the returned text is that response's content, and the returned
`messages` list is exactly the one sent in that last request (nothing was
appended before returning). -/
theorem runLoop_answer_spec (complete : ModelRequest → Except String AssistantMessage)
    (session : Session) (parseArgs : String → Option String)
    (dep : String) (tools : List OAITool) :
    ∀ (fuel : Nat) (messages : List Turn) (trace : List ModelRequest)
      (text : String) (final : List Turn) (tr : List ModelRequest),
      runLoop complete session parseArgs dep tools fuel messages trace =
        LoopResult.answer text final tr →
      ∃ req msg, tr.getLast? = some req ∧ complete req = Except.ok msg ∧
        msg.toolCalls = [] ∧ text = msg.content ∧ final = req.messages := by
  intro fuel
  induction fuel with
  | zero =>
      intro messages trace text final tr h
      simp [runLoop] at h
  | succ fuel ih =>
      intro messages trace text final tr h
      simp only [runLoop] at h
      split at h
      next e hc => simp at h
      next msg hc =>
        split at h
        next hm =>
          simp only [LoopResult.answer.injEq] at h
          obtain ⟨h1, h2, h3⟩ := h
          refine ⟨mkRequest dep tools messages, msg, ?_, hc, hm, h1.symm, ?_⟩
          · rw [← h3]; simp
          · rw [← h2]; rfl
        next tc rest hm =>
          split at h
          next e hr => simp at h
          next turns hr => exact ih _ _ text final tr h

/-- Under a model oracle that requests tool calls on every successful
response, the loop never reaches the `return` of line 132, at any fuel. -/
theorem runLoop_no_answer (complete : ModelRequest → Except String AssistantMessage)
    (session : Session) (parseArgs : String → Option String)
    (dep : String) (tools : List OAITool)
    (h : ∀ req msg, complete req = Except.ok msg → msg.toolCalls ≠ []) :
    ∀ (fuel : Nat) (messages : List Turn) (trace : List ModelRequest),
      (runLoop complete session parseArgs dep tools fuel messages trace).isAnswer
        = false := by
  intro fuel
  induction fuel with
  | zero => intro messages trace; rfl
  | succ fuel ih =>
      intro messages trace
      simp only [runLoop]
      split
      next e hc => rfl
      next msg hc =>
        split
        next hm => exact absurd hm (h _ _ hc)
        next tc rest hm =>
          split
          next e hr => rfl
          next turns hr => exact ih _ _

/-- When the response to the current request has no tool calls, the loop
returns right there with that response's text (lines 130-132). -/
theorem runLoop_direct_return (complete : ModelRequest → Except String AssistantMessage)
    (session : Session) (parseArgs : String → Option String)
    (dep : String) (tools : List OAITool) (fuel : Nat)
    (messages : List Turn) (trace : List ModelRequest) (msg : AssistantMessage)
    (hc : complete (mkRequest dep tools messages) = Except.ok msg)
    (hm : msg.toolCalls = []) :
    runLoop complete session parseArgs dep tools (fuel + 1) messages trace =
      LoopResult.answer msg.content messages
        (trace ++ [mkRequest dep tools messages]) := by
  simp only [runLoop, hc, hm]

/-- Trace invariant of the loop: starting from state `messages`, the requests
it adds to the trace all carry the fixed deployment name, `max_tokens=1500`,
the fixed tool snapshot and `tool_choice="auto"`; the first one sends exactly
`messages`; each sends an extension of `messages`; and consecutive requests
send strictly growing, append-only extensions of one another. -/
theorem runLoop_trace_spec (complete : ModelRequest → Except String AssistantMessage)
    (session : Session) (parseArgs : String → Option String)
    (dep : String) (tools : List OAITool) :
    ∀ (fuel : Nat) (messages : List Turn) (trace : List ModelRequest),
      ∃ extra : List ModelRequest,
        (runLoop complete session parseArgs dep tools fuel messages trace).trace
          = trace ++ extra ∧
        (∀ req ∈ extra, req = mkRequest dep tools req.messages) ∧
        (∀ req, extra.head? = some req → req.messages = messages) ∧
        (∀ req ∈ extra, ∃ t, req.messages = messages ++ t) ∧
        List.Chain'
          (fun a b => (∃ t, b.messages = a.messages ++ t) ∧
            a.messages.length < b.messages.length) extra := by
  intro fuel
  induction fuel with
  | zero =>
      intro messages trace
      exact ⟨[], by simp [runLoop, LoopResult.trace]⟩
  | succ fuel ih =>
      intro messages trace
      simp only [runLoop]
      split
      next e hc =>
        refine ⟨[mkRequest dep tools messages], ?_⟩
        simp [LoopResult.trace, mkRequest]
      next msg hc =>
        split
        next hm =>
          refine ⟨[mkRequest dep tools messages], ?_⟩
          simp [LoopResult.trace, mkRequest]
        next tc rest hm =>
          split
          next e hr =>
            refine ⟨[mkRequest dep tools messages], ?_⟩
            simp [LoopResult.trace, mkRequest]
          next turns hr =>
            obtain ⟨extra, h1, h2, h3, h4, h5⟩ :=
              ih ((messages ++ [Turn.assistant msg.content msg.toolCalls]) ++ turns)
                (trace ++ [mkRequest dep tools messages])
            refine ⟨mkRequest dep tools messages :: extra, ?_, ?_, ?_, ?_, ?_⟩
            · rw [h1]; simp
            · intro req hreq
              rcases List.mem_cons.mp hreq with hh | ht
              · rw [hh]; rfl
              · exact h2 req ht
            · intro req hreq
              simp only [List.head?_cons, Option.some.injEq] at hreq
              rw [← hreq]; rfl
            · intro req hreq
              rcases List.mem_cons.mp hreq with hh | ht
              · exact ⟨[], by rw [hh]; simp [mkRequest]⟩
              · obtain ⟨t, htx⟩ := h4 req ht
                exact ⟨[Turn.assistant msg.content msg.toolCalls] ++ turns ++ t,
                  by rw [htx]; simp⟩
            · refine List.Chain'.cons' h5 ?_
              intro y hy
              have hym := h3 y (by simpa using hy)
              constructor
              · exact ⟨[Turn.assistant msg.content msg.toolCalls] ++ turns,
                  by rw [hym]; simp [mkRequest]⟩
              · rw [hym]
                simp [mkRequest]

/-- C1: `process_query` returns normally exactly when a model response
contains no tool calls — whenever it returns an answer, the last issued
request got a response without tool calls whose content is the returned text,
and a no-tool-call response makes it return right there — and no iteration cap
is enforced by the loop: under a model oracle that requests tool calls on
every successful response, `process_query` never returns, at any fuel bound. -/
theorem C1_termination_only_when_no_tool_calls :
    (∀ (client : MCPClient) (complete : ModelRequest → Except String AssistantMessage)
        (parseArgs : String → Option String) (fuel : Nat) (query text : String)
        (final : List Turn) (tr : List ModelRequest),
        process_query client complete parseArgs fuel query =
          LoopResult.answer text final tr →
        ∃ req msg, tr.getLast? = some req ∧ complete req = Except.ok msg ∧
          msg.toolCalls = [] ∧ text = msg.content) ∧
    (∀ (client : MCPClient) (session : Session)
        (complete : ModelRequest → Except String AssistantMessage)
        (parseArgs : String → Option String) (fuel : Nat) (query : String)
        (msg : AssistantMessage),
        client.session = some session →
        complete (mkRequest client.azure_deployment_name
          (toOAITools session.tools) [Turn.user query]) = Except.ok msg →
        msg.toolCalls = [] →
        (process_query client complete parseArgs (fuel + 1) query).isAnswer = true) ∧
    (∀ (client : MCPClient) (complete : ModelRequest → Except String AssistantMessage)
        (parseArgs : String → Option String) (fuel : Nat) (query : String),
        (∀ req msg, complete req = Except.ok msg → msg.toolCalls ≠ []) →
        (process_query client complete parseArgs fuel query).isAnswer = false) := by
  refine ⟨?_, ?_, ?_⟩
  · intro client complete parseArgs fuel query text final tr h
    cases hcs : client.session with
    | none => simp [process_query, hcs] at h
    | some session =>
        simp only [process_query, hcs] at h
        obtain ⟨req, msg, hl, hc, hm, ht, _⟩ :=
          runLoop_answer_spec complete session parseArgs _ _ fuel _ _ text final tr h
        exact ⟨req, msg, hl, hc, hm, ht⟩
  · intro client session complete parseArgs fuel query msg hcs hc hm
    simp only [process_query, hcs]
    rw [runLoop_direct_return complete session parseArgs _ _ fuel _ _ msg hc hm]
    rfl
  · intro client complete parseArgs fuel query h
    cases hcs : client.session with
    | none => simp [process_query, hcs, LoopResult.isAnswer]
    | some session =>
        simp only [process_query, hcs]
        exact runLoop_no_answer complete session parseArgs _ _ h fuel _ _

/-- Witness for C1 at concrete inputs: a one-shot no-tool run does answer with
the last response's text, and a three-round run under a model that always
requests tool calls has still not answered. -/
theorem C1_termination_witness :
    (∃ req msg,
        ([mkRequest "gpt-4o" (toOAITools demoSession.tools)
          [Turn.user "hi"]]).getLast? = some req ∧
        noToolModel req = Except.ok msg ∧ msg.toolCalls = [] ∧
        "hello" = msg.content) ∧
    (process_query demoClient noToolModel parseOk 1 "hi").isAnswer = true ∧
    (process_query demoClient alwaysToolModel parseOk 3 "hi").isAnswer = false :=
  ⟨C1_termination_only_when_no_tool_calls.1 demoClient noToolModel parseOk 1 "hi"
      "hello" [Turn.user "hi"]
      [mkRequest "gpt-4o" (toOAITools demoSession.tools) [Turn.user "hi"]] rfl,
   C1_termination_only_when_no_tool_calls.2.1 demoClient demoSession noToolModel
      parseOk 0 "hi" { content := "hello", toolCalls := [] } rfl rfl rfl,
   C1_termination_only_when_no_tool_calls.2.2 demoClient alwaysToolModel parseOk
      3 "hi"
      (fun req msg h => by
        simp only [alwaysToolModel, Except.ok.injEq] at h
        rw [← h]
        simp [demoCalls])⟩

/-- C2 counterexample: on a query whose first model response has no tool
calls, `process_query` does return the response text `"hello"` unchanged, but
at the moment of return the messages list holds exactly ONE turn (the user
turn), not the claimed two: the final assistant turn is never appended — the
code returns at line 132 without appending. -/
theorem C2_two_turns_counterexample :
    process_query demoClient noToolModel parseOk 1 "hi" =
      LoopResult.answer "hello" [Turn.user "hi"]
        [mkRequest "gpt-4o" (toOAITools demoSession.tools) [Turn.user "hi"]] ∧
    ([Turn.user "hi"] : List Turn).length ≠ 2 :=
  ⟨rfl, by decide⟩

/-- C2 (amended): for every query where the model's first response contains no
tool calls, `process_query` returns that response's text content unchanged,
and at the moment of return the Conversation State contains exactly one turn —
the user turn; the final assistant turn is not appended before returning. -/
theorem C2_returns_text_single_turn (client : MCPClient) (session : Session)
    (complete : ModelRequest → Except String AssistantMessage)
    (parseArgs : String → Option String) (fuel : Nat) (query : String)
    (msg : AssistantMessage)
    (hs : client.session = some session)
    (hc : complete (mkRequest client.azure_deployment_name
      (toOAITools session.tools) [Turn.user query]) = Except.ok msg)
    (hm : msg.toolCalls = []) :
    process_query client complete parseArgs (fuel + 1) query =
      LoopResult.answer msg.content [Turn.user query]
        [mkRequest client.azure_deployment_name (toOAITools session.tools)
          [Turn.user query]] := by
  simp only [process_query, hs]
  rw [runLoop_direct_return complete session parseArgs _ _ fuel _ _ msg hc hm]
  simp

/-- Witness for C2 (amended) at a concrete one-shot run. -/
theorem C2_returns_text_single_turn_witness :
    process_query demoClient noToolModel parseOk 1 "hi" =
      LoopResult.answer "hello" [Turn.user "hi"]
        [mkRequest "gpt-4o" (toOAITools demoSession.tools) [Turn.user "hi"]] :=
  C2_returns_text_single_turn demoClient demoSession noToolModel parseOk 0 "hi"
    { content := "hello", toolCalls := [] } rfl rfl rfl

/-- C3 counterexample: the model requests one tool call whose raw argument
payload `"BAD"` is unparsable; `process_query` aborts the whole query with the
raised parse error — no failure tool-result turn is produced and no next model
round happens (the trace holds exactly the one request that was issued),
contradicting the claim that a failure Tool Result is appended and the loop
proceeds. -/
theorem C3_malformed_args_counterexample :
    process_query demoClient badArgModel parseOk 5 "q" =
      LoopResult.failed (QueryError.argumentParseError "BAD")
        [mkRequest "gpt-4o" (toOAITools demoSession.tools) [Turn.user "q"]] :=
  rfl

/-- C3 (amended): a tool call whose raw argument payload cannot be parsed
aborts the whole query: the uncaught `json.loads` error of line 143 propagates
out of `process_query`, no failure tool-result turn is appended, and the loop
does not proceed to another model round. -/
theorem C3_malformed_args_abort (client : MCPClient) (session : Session)
    (complete : ModelRequest → Except String AssistantMessage)
    (parseArgs : String → Option String) (fuel : Nat) (query : String)
    (msg : AssistantMessage) (tc : ToolCall) (rest : List ToolCall)
    (hs : client.session = some session)
    (hc : complete (mkRequest client.azure_deployment_name
      (toOAITools session.tools) [Turn.user query]) = Except.ok msg)
    (hm : msg.toolCalls = tc :: rest)
    (hbad : parseArgs tc.function.arguments = none) :
    process_query client complete parseArgs (fuel + 1) query =
      LoopResult.failed (QueryError.argumentParseError tc.function.arguments)
        [mkRequest client.azure_deployment_name (toOAITools session.tools)
          [Turn.user query]] := by
  simp only [process_query, hs, runLoop, hc, hm]
  simp [runToolCalls, hbad]

/-- Witness for C3 (amended) at a concrete run with payload `"BAD"`. -/
theorem C3_malformed_args_abort_witness :
    process_query demoClient badArgModel parseOk 5 "q" =
      LoopResult.failed (QueryError.argumentParseError "BAD")
        [mkRequest "gpt-4o" (toOAITools demoSession.tools) [Turn.user "q"]] :=
  C3_malformed_args_abort demoClient demoSession badArgModel parseOk 4 "q"
    { content := "", toolCalls := [badArgCall] } badArgCall [] rfl rfl rfl rfl

/-- C4: whenever the tool-execution session reports failure through a returned
result (MCP wraps unknown-tool and execution failures into the result; the
hypothesis lets every `call_tool` return a result that may carry
`isError = true`), the round loop of lines 139-156 does not branch on failure
and does not re-raise: it returns exactly one tool-result turn per requested
call, each carrying the returned result's content verbatim — so every
requested tool call yields a tool-result turn, even on failure. -/
theorem C4_failure_captured_as_tool_result (session : Session)
    (parseArgs : String → Option String) (calls : List ToolCall)
    (h : ∀ c ∈ calls, callSucceeds session parseArgs c) :
    ∃ turns, runToolCalls session parseArgs calls = Except.ok turns ∧
      List.Forall₂ (invokedOk session parseArgs) calls turns :=
  runToolCalls_forall2 session parseArgs calls h

/-- Witness for C4: a session that reports every call as failed
(`isError = true`, content `"Error: tool not found"`) still yields one
tool-result turn for the requested call, with no error raised. -/
theorem C4_failure_captured_witness :
    ∃ turns, runToolCalls failSession parseOk demoFailCalls = Except.ok turns ∧
      List.Forall₂ (invokedOk failSession parseOk) demoFailCalls turns :=
  C4_failure_captured_as_tool_result failSession parseOk demoFailCalls
    (by
      intro c hcm
      simp only [demoFailCalls, List.mem_singleton] at hcm
      rw [hcm]
      exact ⟨"{}", { isError := true, content := "Error: tool not found" },
        rfl, rfl⟩)

/-- C5: within one assistant turn, the requested tool calls are invoked one at
a time in the order received, producing exactly one tool-result turn per call;
the loop appends the assistant turn followed by those tool-result turns, in
that same order, to the state passed to the next round, and the tool-result
turns' call identifiers (and tool names) match the assistant turn's calls
one-to-one in the same order. -/
theorem C5_tool_results_in_order
    (complete : ModelRequest → Except String AssistantMessage)
    (session : Session) (parseArgs : String → Option String)
    (dep : String) (tools : List OAITool) (fuel : Nat)
    (messages : List Turn) (trace : List ModelRequest)
    (msg : AssistantMessage) (tc : ToolCall) (rest : List ToolCall)
    (hc : complete (mkRequest dep tools messages) = Except.ok msg)
    (hm : msg.toolCalls = tc :: rest)
    (hall : ∀ c ∈ msg.toolCalls, callSucceeds session parseArgs c) :
    ∃ turns,
      runToolCalls session parseArgs msg.toolCalls = Except.ok turns ∧
      turns.length = msg.toolCalls.length ∧
      turns.map Turn.callId = msg.toolCalls.map (fun c => some c.id) ∧
      turns.map Turn.toolName
        = msg.toolCalls.map (fun c => some c.function.name) ∧
      runLoop complete session parseArgs dep tools (fuel + 1) messages trace =
        runLoop complete session parseArgs dep tools fuel
          ((messages ++ [Turn.assistant msg.content msg.toolCalls]) ++ turns)
          (trace ++ [mkRequest dep tools messages]) := by
  obtain ⟨turns, hrun, hf⟩ := runToolCalls_forall2 session parseArgs
    msg.toolCalls hall
  refine ⟨turns, hrun, hf.length_eq.symm, ?_, ?_, ?_⟩
  · refine (forall2_map_eq ?_ hf).symm
    intro a b hab
    obtain ⟨x, r, _, _, hb⟩ := hab
    rw [hb]
    rfl
  · refine (forall2_map_eq ?_ hf).symm
    intro a b hab
    obtain ⟨x, r, _, _, hb⟩ := hab
    rw [hb]
    rfl
  · simp only [runLoop, hc, hm]
    rw [← hm, hrun]

/-- Witness for C5: one concrete round with one requested call produces one
tool-result turn with the matching id and name, and the loop proceeds with the
assistant turn and that result appended in order. -/
theorem C5_tool_results_in_order_witness :
    ∃ turns,
      runToolCalls demoSession parseOk demoCalls = Except.ok turns ∧
      turns.length = demoCalls.length ∧
      turns.map Turn.callId = demoCalls.map (fun c => some c.id) ∧
      turns.map Turn.toolName = demoCalls.map (fun c => some c.function.name) ∧
      runLoop alwaysToolModel demoSession parseOk "gpt-4o"
          (toOAITools demoSession.tools) 2 [Turn.user "hi"] [] =
        runLoop alwaysToolModel demoSession parseOk "gpt-4o"
          (toOAITools demoSession.tools) 1
          (([Turn.user "hi"] ++ [Turn.assistant "" demoCalls]) ++ turns)
          ([] ++ [mkRequest "gpt-4o" (toOAITools demoSession.tools)
            [Turn.user "hi"]]) :=
  C5_tool_results_in_order alwaysToolModel demoSession parseOk "gpt-4o"
    (toOAITools demoSession.tools) 1 [Turn.user "hi"] []
    { content := "", toolCalls := demoCalls }
    { id := "call_1", function := { name := "list_issues", arguments := "{}" } }
    [] rfl rfl
    (by
      intro c hcm
      simp only [demoCalls, List.mem_singleton] at hcm
      rw [hcm]
      exact ⟨"{}", { isError := false, content := "{count: 3}" }, rfl, rfl⟩)

/-- C6: every model-API request the run issues carries the same tool snapshot
(the conversion of the session's tool list, fetched once at the start of the
query) and `tool_choice="auto"` (the caller never forces a mode); the first
request sends exactly the seeded Conversation State and each later request
sends an append-only extension of the previous one — the entire state
accumulated so far. -/
theorem C6_full_history_and_snapshot_each_call (client : MCPClient)
    (session : Session)
    (complete : ModelRequest → Except String AssistantMessage)
    (parseArgs : String → Option String) (fuel : Nat) (query : String)
    (hs : client.session = some session) :
    (∀ req ∈ (process_query client complete parseArgs fuel query).trace,
        req.tools = toOAITools session.tools ∧ req.toolChoice = "auto") ∧
    (∀ req, (process_query client complete parseArgs fuel query).trace.head?
        = some req → req.messages = [Turn.user query]) ∧
    List.Chain' (fun a b => ∃ t, b.messages = a.messages ++ t)
      (process_query client complete parseArgs fuel query).trace := by
  obtain ⟨extra, h1, h2, h3, h4, h5⟩ := runLoop_trace_spec complete session
    parseArgs client.azure_deployment_name (toOAITools session.tools) fuel
    [Turn.user query] []
  have hp : (process_query client complete parseArgs fuel query).trace
      = extra := by
    simp only [process_query, hs]
    rw [h1]
    simp
  rw [hp]
  refine ⟨?_, h3, ?_⟩
  · intro req hreq
    rw [h2 req hreq]
    exact ⟨rfl, rfl⟩
  · exact List.Chain'.imp (fun a b h => h.1) h5

/-- Witness for C6 at a concrete one-shot run: the single issued request
carries the snapshot and the automatic tool-choice mode. -/
theorem C6_full_history_witness :
    (mkRequest "gpt-4o" (toOAITools demoSession.tools) [Turn.user "hi"]).tools
        = toOAITools demoSession.tools ∧
    (mkRequest "gpt-4o" (toOAITools demoSession.tools)
        [Turn.user "hi"]).toolChoice = "auto" :=
  (C6_full_history_and_snapshot_each_call demoClient demoSession noToolModel
      parseOk 1 "hi" rfl).1
    (mkRequest "gpt-4o" (toOAITools demoSession.tools) [Turn.user "hi"])
    (by decide)

/-- C7: within one `process_query` run the Conversation State is append-only —
the first model call is made with exactly the single user turn; every model
call's state is the user turn followed by whatever was appended after it;
across consecutive rounds the state grows strictly in length, each later state
extending the earlier by appending only; and on normal return the returned
state is exactly the state sent in the last request — no turn is mutated or
removed once appended. -/
theorem C7_append_only_state (client : MCPClient)
    (complete : ModelRequest → Except String AssistantMessage)
    (parseArgs : String → Option String) (fuel : Nat) (query : String) :
    (∀ req, (process_query client complete parseArgs fuel query).trace.head?
        = some req → req.messages = [Turn.user query]) ∧
    (∀ req ∈ (process_query client complete parseArgs fuel query).trace,
        ∃ t, req.messages = [Turn.user query] ++ t) ∧
    List.Chain'
      (fun a b => (∃ t, b.messages = a.messages ++ t) ∧
        a.messages.length < b.messages.length)
      (process_query client complete parseArgs fuel query).trace ∧
    (∀ text final tr,
        process_query client complete parseArgs fuel query =
          LoopResult.answer text final tr →
        ∀ req, tr.getLast? = some req → final = req.messages) := by
  cases hcs : client.session with
  | none =>
      refine ⟨?_, ?_, ?_, ?_⟩ <;> simp [process_query, hcs, LoopResult.trace]
  | some session =>
      obtain ⟨extra, h1, h2, h3, h4, h5⟩ := runLoop_trace_spec complete session
        parseArgs client.azure_deployment_name (toOAITools session.tools) fuel
        [Turn.user query] []
      have hp : (process_query client complete parseArgs fuel query).trace
          = extra := by
        simp only [process_query, hcs]
        rw [h1]
        simp
      refine ⟨by rw [hp]; exact h3, by rw [hp]; exact h4, by rw [hp]; exact h5, ?_⟩
      intro text final tr hans req hlast
      simp only [process_query, hcs] at hans
      obtain ⟨req', msg, hl, _, _, _, hfin⟩ := runLoop_answer_spec complete
        session parseArgs _ _ fuel _ _ text final tr hans
      rw [hl] at hlast
      have hrr := Option.some.inj hlast
      rw [← hrr]
      exact hfin

/-- Witness for C7 at a concrete one-shot run: the single issued request's
state is the user turn followed by (here, nothing appended yet). -/
theorem C7_append_only_witness :
    ∃ t, (mkRequest "gpt-4o" (toOAITools demoSession.tools)
        [Turn.user "hi"]).messages = [Turn.user "hi"] ++ t :=
  (C7_append_only_state demoClient noToolModel parseOk 1 "hi").2.1
    (mkRequest "gpt-4o" (toOAITools demoSession.tools) [Turn.user "hi"])
    (by decide)

/-- C8: any failure raised out of `process_query` aborts only that query — the
interactive loop catches it, reports the error text to the user, and continues
with the remaining inputs exactly as it would have without the failure, so the
process accepts the next query immediately; this holds for every error kind,
none is fatal to the process, and the failed query's Conversation State does
not escape (the emitted event carries only the error text). -/
theorem C8_error_aborts_single_query_only (client : MCPClient)
    (complete : ModelRequest → Except String AssistantMessage)
    (parseArgs : String → Option String) (fuel : Nat)
    (raw : String) (rest : List String) (e : QueryError)
    (tr : List ModelRequest)
    (hq : ¬ pyLower (pyStrip raw) = "quit")
    (hne : ¬ pyStrip raw = "")
    (he : process_query client complete parseArgs fuel (pyStrip raw) =
      LoopResult.failed e tr) :
    chat_loop client complete parseArgs fuel (raw :: rest) =
      ChatEvent.errorReport e.toMessage ::
        chat_loop client complete parseArgs fuel rest := by
  simp only [chat_loop, if_neg hq, if_neg hne, he]

/-- Witness for C8: a not-connected failure on the first input is reported and
the loop goes on to process the remaining input list. -/
theorem C8_error_witness :
    chat_loop (MCPClient.new "gpt-4o") noToolModel parseOk 1 ["hello", "next"] =
      ChatEvent.errorReport QueryError.notConnected.toMessage ::
        chat_loop (MCPClient.new "gpt-4o") noToolModel parseOk 1 ["next"] :=
  C8_error_aborts_single_query_only (MCPClient.new "gpt-4o") noToolModel parseOk
    1 "hello" ["next"] QueryError.notConnected [] (by decide) (by decide) rfl

/-- C9: invoking `process_query` — whose first session operation is the
tool-listing call — on a client whose session connection was never
initialized (`self.session` still `None` as `__init__` left it) fails with
the not-connected error, before any model call is made (empty request
trace). -/
theorem C9_not_connected_failure (dep : String)
    (complete : ModelRequest → Except String AssistantMessage)
    (parseArgs : String → Option String) (fuel : Nat) (query : String) :
    process_query (MCPClient.new dep) complete parseArgs fuel query =
      LoopResult.failed QueryError.notConnected [] := rfl

/-- C10: every model-API request issued by `process_query` carries
`max_tokens = 1500` — the fixed per-call completion-token limit of line 120,
applied uniformly to every iteration of the loop. -/
theorem C10_max_tokens_limit (client : MCPClient)
    (complete : ModelRequest → Except String AssistantMessage)
    (parseArgs : String → Option String) (fuel : Nat) (query : String)
    (req : ModelRequest)
    (h : req ∈ (process_query client complete parseArgs fuel query).trace) :
    req.maxTokens = 1500 := by
  cases hcs : client.session with
  | none => simp [process_query, hcs, LoopResult.trace] at h
  | some session =>
      obtain ⟨extra, h1, h2, _, _, _⟩ := runLoop_trace_spec complete session
        parseArgs client.azure_deployment_name (toOAITools session.tools) fuel
        [Turn.user query] []
      simp only [process_query, hcs] at h
      rw [h1] at h
      simp only [List.nil_append] at h
      rw [h2 req h]
      rfl

/-- Witness for C10 at a concrete one-shot run. -/
theorem C10_max_tokens_witness :
    (mkRequest "gpt-4o" (toOAITools demoSession.tools)
        [Turn.user "hi"]).maxTokens = 1500 :=
  C10_max_tokens_limit demoClient noToolModel parseOk 1 "hi"
    (mkRequest "gpt-4o" (toOAITools demoSession.tools) [Turn.user "hi"])
    (by decide)
